import Mathlib

/-!
Shallow embedding of the `ip-in-subnet` Rust crate (src/lib.rs).

The crate exposes four functions over textual inputs:
`iface_in_subnet`, `iface_in_any_subnet`, `iface_in_all_subnets` and
`any_iface_in_any_subnet`.  The crate's own code only observes a text
through the outcome of parsing it (`str::parse::<Ipv4Addr>`,
`str::parse::<Ipv6Addr>`, `str::parse::<NetAddr>`), so a text is embedded
as its parse outcomes: an interface text is the pair of its optional IPv4
and IPv6 parse results, and a subnet text is the outcome of the `NetAddr`
parse (an IPv4 network, an IPv6 network, or a parse error carrying a
message).  Addresses are fixed-width unsigned integers (32 or 128 bits)
represented as `Nat`.

The containment test `contains` comes from the external `netaddr2` crate,
whose source is not part of this repository; it is modelled from the
spec's description (mask both the base address and the candidate to the
prefix length over the family's bit width and compare).
-/

namespace IpInSubnet

/-- Mask a `w`-bit address `a` to its top `p` bits: the low `w - p` host
bits are zeroed by truncating division. -/
def maskAddr (w p a : Nat) : Nat :=
  a / 2 ^ (w - p) * 2 ^ (w - p)

/-- An IPv4 CIDR network: a 32-bit base address and a prefix length.
The base address need not already be masked to the prefix length. -/
structure Netv4Addr where
  base : Nat
  pfxLen : Nat
deriving DecidableEq

/-- An IPv6 CIDR network: a 128-bit base address and a prefix length. -/
structure Netv6Addr where
  base : Nat
  pfxLen : Nat
deriving DecidableEq

/-- Modelled from the spec: `netaddr2::Netv4Addr::contains` (the crate's
source is not in this repository).  Mask both the network's base address
and the candidate address to the network's prefix length using the 32-bit
IPv4 width, and compare the masked values for equality. -/
def Netv4Addr.contains (s : Netv4Addr) (a : Nat) : Bool :=
  maskAddr 32 s.pfxLen a == maskAddr 32 s.pfxLen s.base

/-- Modelled from the spec: `netaddr2::Netv6Addr::contains`, the 128-bit
IPv6 analogue of `Netv4Addr.contains`. -/
def Netv6Addr.contains (s : Netv6Addr) (a : Nat) : Bool :=
  maskAddr 128 s.pfxLen a == maskAddr 128 s.pfxLen s.base

/-- Outcome of `subnet.parse::<NetAddr>()` on a subnet text: an IPv4
network, an IPv6 network, or a parse error carrying its message. -/
inductive NetParse where
  | v4 (s : Netv4Addr)
  | v6 (s : Netv6Addr)
  | err (e : String)
deriving DecidableEq

/-- Whether a subnet text fails to parse. -/
def NetParse.isErr : NetParse → Bool
  | .err _ => true
  | _ => false

/-- An interface (candidate address) text, embedded as its parse
outcomes: `p4` is the result of `iface.parse::<Ipv4Addr>()` and `p6` the
result of `iface.parse::<Ipv6Addr>()` (`none` when parsing fails). -/
structure IfaceText where
  p4 : Option Nat
  p6 : Option Nat
deriving DecidableEq

/-- Embedding of `iface_in_subnet` (src/lib.rs lines 129-149): parse the
subnet text; on an IPv4 (resp. IPv6) network, test containment of the
interface parsed in the same family, yielding `Ok false` when the
interface does not parse in that family; a subnet parse error is
returned as `Err`. -/
def iface_in_subnet (iface : IfaceText) : NetParse → Except String Bool
  | .v4 subnet4 =>
    match iface.p4 with
    | some a => .ok (subnet4.contains a)
    | none => .ok false
  | .v6 subnet6 =>
    match iface.p6 with
    | some a => .ok (subnet6.contains a)
    | none => .ok false
  | .err e => .error e

/-- Loop of `iface_in_any_subnet` (src/lib.rs lines 174-207).  The two
`Option Nat` arguments are the mutable caches `iface4` and `iface6` of
the Rust code: on a network of a family whose cache is `none` the
interface text is parsed in that family, a failed parse `continue`s the
loop, and a successful parse fills the cache before the containment
test. -/
def iface_in_any_subnet_go (iface : IfaceText) :
    Option Nat → Option Nat → List NetParse → Except String Bool
  | _, _, [] => .ok false
  | none, iface6, NetParse.v4 subnet4 :: rest =>
    match iface.p4 with
    | some a =>
      if subnet4.contains a then .ok true
      else iface_in_any_subnet_go iface (some a) iface6 rest
    | none => iface_in_any_subnet_go iface none iface6 rest
  | some a, iface6, NetParse.v4 subnet4 :: rest =>
    if subnet4.contains a then .ok true
    else iface_in_any_subnet_go iface (some a) iface6 rest
  | iface4, none, NetParse.v6 subnet6 :: rest =>
    match iface.p6 with
    | some a =>
      if subnet6.contains a then .ok true
      else iface_in_any_subnet_go iface iface4 (some a) rest
    | none => iface_in_any_subnet_go iface iface4 none rest
  | iface4, some a, NetParse.v6 subnet6 :: rest =>
    if subnet6.contains a then .ok true
    else iface_in_any_subnet_go iface iface4 (some a) rest
  | _, _, NetParse.err e :: _ => .error e

/-- Embedding of `iface_in_any_subnet` (src/lib.rs lines 174-207): the
loop starts with both per-family caches empty. -/
def iface_in_any_subnet (iface : IfaceText) (subnets : List NetParse) :
    Except String Bool :=
  iface_in_any_subnet_go iface none none subnets

/-- Embedding of `iface_in_all_subnets` (src/lib.rs lines 232-240): for
each subnet text, evaluate `iface_in_subnet`; `Ok false` returns
`Ok false` at once, and any other result (`Ok true` or `Err`) falls
through to the next iteration, as the Rust `if let Ok(false)` does. -/
def iface_in_all_subnets (iface : IfaceText) : List NetParse → Except String Bool
  | [] => .ok true
  | subnet :: rest =>
    match iface_in_subnet iface subnet with
    | .ok false => .ok false
    | _ => iface_in_all_subnets iface rest

/-- Inner IPv4 loop of `any_iface_in_any_subnet`: scan the interface
texts in order, returning true at the first that parses as IPv4 and is
contained in the network; a text that does not parse as IPv4 is
skipped. -/
def any_iface_v4 (subnet4 : Netv4Addr) : List IfaceText → Bool
  | [] => false
  | iface :: rest =>
    match iface.p4 with
    | some a =>
      if subnet4.contains a then true else any_iface_v4 subnet4 rest
    | none => any_iface_v4 subnet4 rest

/-- Inner IPv6 loop of `any_iface_in_any_subnet`, the IPv6 analogue of
`any_iface_v4`. -/
def any_iface_v6 (subnet6 : Netv6Addr) : List IfaceText → Bool
  | [] => false
  | iface :: rest =>
    match iface.p6 with
    | some a =>
      if subnet6.contains a then true else any_iface_v6 subnet6 rest
    | none => any_iface_v6 subnet6 rest

/-- Embedding of `any_iface_in_any_subnet` (src/lib.rs lines 267-292):
outer loop over subnet texts (each parsed once); a parse error is
returned at once; otherwise the inner loop scans the interface texts in
the network's family, and a match returns `Ok true`. -/
def any_iface_in_any_subnet (ifaces : List IfaceText) :
    List NetParse → Except String Bool
  | [] => .ok false
  | subnet :: rest =>
    match subnet with
    | .v4 subnet4 =>
      if any_iface_v4 subnet4 ifaces then .ok true
      else any_iface_in_any_subnet ifaces rest
    | .v6 subnet6 =>
      if any_iface_v6 subnet6 ifaces then .ok true
      else any_iface_in_any_subnet ifaces rest
    | .err e => .error e

/-- The naive fold described by the refinement claim: evaluate
`iface_in_subnet` on each subnet text in order, returning `Ok true` at
the first `Ok true`, propagating the first `Err`, and returning
`Ok false` when the list is exhausted.  This definition follows the
claim's words, to be compared with `iface_in_any_subnet`. -/
def iface_in_any_subnet_naive (iface : IfaceText) : List NetParse → Except String Bool
  | [] => .ok false
  | subnet :: rest =>
    match iface_in_subnet iface subnet with
    | .ok true => .ok true
    | .ok false => iface_in_any_subnet_naive iface rest
    | .error e => .error e

/-- Success condition of the inner loop of `any_iface_in_any_subnet` for
one (subnet text, interface text) pair: the interface parses in the
network's family and the network contains it. -/
def pairMatch : NetParse → IfaceText → Bool
  | .v4 subnet4, iface =>
    match iface.p4 with
    | some a => subnet4.contains a
    | none => false
  | .v6 subnet6, iface =>
    match iface.p6 with
    | some a => subnet6.contains a
    | none => false
  | .err _, _ => false

instance {ε α : Type} [DecidableEq ε] [DecidableEq α] : DecidableEq (Except ε α) :=
  fun a b =>
    match a, b with
    | .ok x, .ok y =>
      if h : x = y then .isTrue (by rw [h])
      else .isFalse (fun hh => by cases hh; exact h rfl)
    | .error x, .error y =>
      if h : x = y then .isTrue (by rw [h])
      else .isFalse (fun hh => by cases hh; exact h rfl)
    | .ok _, .error _ => .isFalse (fun hh => by cases hh)
    | .error _, .ok _ => .isFalse (fun hh => by cases hh)

example : iface_in_subnet ⟨some 3232282113, none⟩ (.v4 ⟨3232282112, 24⟩) = .ok true := by
  decide

example : iface_in_subnet ⟨some 3232282369, none⟩ (.v4 ⟨3232282112, 24⟩) = .ok false := by
  decide

lemma maskAddr_zero (w a : Nat) (h : a < 2 ^ w) : maskAddr w 0 a = 0 := by
  simp [maskAddr, Nat.div_eq_of_lt h]

lemma maskAddr_full (w a : Nat) : maskAddr w w a = a := by
  simp [maskAddr]

lemma iface_in_all_subnets_isOk (i : IfaceText) :
    ∀ subnets : List NetParse, ∃ b, iface_in_all_subnets i subnets = .ok b := by
  intro subnets
  induction subnets with
  | nil => exact ⟨true, rfl⟩
  | cons s rest ih =>
    cases h : iface_in_subnet i s with
    | ok b =>
      cases b
      · exact ⟨false, by simp [iface_in_all_subnets, h]⟩
      · obtain ⟨c, hc⟩ := ih
        exact ⟨c, by simp [iface_in_all_subnets, h, hc]⟩
    | error e =>
      obtain ⟨c, hc⟩ := ih
      exact ⟨c, by simp [iface_in_all_subnets, h, hc]⟩

lemma iface_in_all_subnets_drop_err (i : IfaceText) (e : String) :
    ∀ (pre post : List NetParse),
      iface_in_all_subnets i (pre ++ NetParse.err e :: post) =
        iface_in_all_subnets i (pre ++ post) := by
  intro pre post
  induction pre with
  | nil => simp [iface_in_all_subnets, iface_in_subnet]
  | cons s rest ih =>
    cases h : iface_in_subnet i s with
    | ok b =>
      cases b
      · simp [iface_in_all_subnets, h]
      · simp [iface_in_all_subnets, h, ih]
    | error e2 => simp [iface_in_all_subnets, h, ih]

lemma iface_in_any_subnet_go_eq_naive (i : IfaceText) :
    ∀ (subnets : List NetParse) (c4 c6 : Option Nat),
      (c4 = none ∨ c4 = i.p4) → (c6 = none ∨ c6 = i.p6) →
      iface_in_any_subnet_go i c4 c6 subnets = iface_in_any_subnet_naive i subnets := by
  intro subnets
  induction subnets with
  | nil => intro c4 c6 _ _; cases c4 <;> cases c6 <;> rfl
  | cons s rest ih =>
    intro c4 c6 h4 h6
    cases s with
    | v4 s4 =>
      cases hp : i.p4 with
      | none =>
        have hc4 : c4 = none := by
          rcases h4 with h | h
          · exact h
          · rw [h, hp]
        subst hc4
        simp only [iface_in_any_subnet_go, iface_in_any_subnet_naive,
          iface_in_subnet, hp]
        exact ih none c6 (Or.inl rfl) h6
      | some a =>
        have hc4 : c4 = none ∨ c4 = some a := by
          rcases h4 with h | h
          · exact Or.inl h
          · exact Or.inr (h.trans hp)
        cases hc : s4.contains a with
        | true =>
          rcases hc4 with h | h <;> subst h <;>
            simp [iface_in_any_subnet_go, iface_in_any_subnet_naive,
              iface_in_subnet, hp, hc]
        | false =>
          rcases hc4 with h | h <;> subst h <;>
            (simp only [iface_in_any_subnet_go, iface_in_any_subnet_naive,
               iface_in_subnet, hp, hc, Bool.false_eq_true, if_false]
             exact ih (some a) c6 (Or.inr hp.symm) h6)
    | v6 s6 =>
      cases hp : i.p6 with
      | none =>
        have hc6 : c6 = none := by
          rcases h6 with h | h
          · exact h
          · rw [h, hp]
        subst hc6
        simp only [iface_in_any_subnet_go, iface_in_any_subnet_naive,
          iface_in_subnet, hp]
        cases c4 with
        | none => exact ih none none h4 (Or.inl rfl)
        | some a4 => exact ih (some a4) none h4 (Or.inl rfl)
      | some a =>
        have hc6 : c6 = none ∨ c6 = some a := by
          rcases h6 with h | h
          · exact Or.inl h
          · exact Or.inr (h.trans hp)
        cases hc : s6.contains a with
        | true =>
          rcases hc6 with h | h <;> subst h <;> cases c4 <;>
            simp [iface_in_any_subnet_go, iface_in_any_subnet_naive,
              iface_in_subnet, hp, hc]
        | false =>
          rcases hc6 with h | h <;> subst h <;> cases c4 <;>
            (simp only [iface_in_any_subnet_go, iface_in_any_subnet_naive,
               iface_in_subnet, hp, hc, Bool.false_eq_true, if_false]
             exact ih _ (some a) h4 (Or.inr hp.symm))
    | err e =>
      cases c4 <;> cases c6 <;> rfl

lemma iface_in_any_subnet_eq_naive (i : IfaceText) (subnets : List NetParse) :
    iface_in_any_subnet i subnets = iface_in_any_subnet_naive i subnets :=
  iface_in_any_subnet_go_eq_naive i subnets none none (Or.inl rfl) (Or.inl rfl)

lemma iface_in_any_subnet_naive_append_err (i : IfaceText) (e : String)
    (S2 : List NetParse) :
    ∀ S1 : List NetParse, (∀ s ∈ S1, s.isErr = false) →
      iface_in_any_subnet_naive i (S1 ++ NetParse.err e :: S2) =
        if iface_in_any_subnet_naive i S1 = .ok true then .ok true
        else .error e := by
  intro S1
  induction S1 with
  | nil =>
    intro _
    simp [iface_in_any_subnet_naive, iface_in_subnet]
  | cons s rest ih =>
    intro h
    have hs : s.isErr = false := h s (List.mem_cons_self s rest)
    have hrest : ∀ t ∈ rest, t.isErr = false :=
      fun t ht => h t (List.mem_cons_of_mem s ht)
    cases s with
    | v4 s4 =>
      cases hp : i.p4 with
      | none => simp [iface_in_any_subnet_naive, iface_in_subnet, hp, ih hrest]
      | some a =>
        by_cases hc : s4.contains a = true
        · simp [iface_in_any_subnet_naive, iface_in_subnet, hp, hc]
        · simp [iface_in_any_subnet_naive, iface_in_subnet, hp, hc, ih hrest]
    | v6 s6 =>
      cases hp : i.p6 with
      | none => simp [iface_in_any_subnet_naive, iface_in_subnet, hp, ih hrest]
      | some a =>
        by_cases hc : s6.contains a = true
        · simp [iface_in_any_subnet_naive, iface_in_subnet, hp, hc]
        · simp [iface_in_any_subnet_naive, iface_in_subnet, hp, hc, ih hrest]
    | err e2 => simp [NetParse.isErr] at hs

lemma any_iface_in_any_subnet_append_err (ifaces : List IfaceText) (e : String)
    (S2 : List NetParse) :
    ∀ S1 : List NetParse, (∀ s ∈ S1, s.isErr = false) →
      any_iface_in_any_subnet ifaces (S1 ++ NetParse.err e :: S2) =
        if any_iface_in_any_subnet ifaces S1 = .ok true then .ok true
        else .error e := by
  intro S1
  induction S1 with
  | nil =>
    intro _
    simp [any_iface_in_any_subnet]
  | cons s rest ih =>
    intro h
    have hs : s.isErr = false := h s (List.mem_cons_self s rest)
    have hrest : ∀ t ∈ rest, t.isErr = false :=
      fun t ht => h t (List.mem_cons_of_mem s ht)
    cases s with
    | v4 s4 =>
      by_cases hc : any_iface_v4 s4 ifaces = true
      · simp [any_iface_in_any_subnet, hc]
      · simp [any_iface_in_any_subnet, hc, ih hrest]
    | v6 s6 =>
      by_cases hc : any_iface_v6 s6 ifaces = true
      · simp [any_iface_in_any_subnet, hc]
      · simp [any_iface_in_any_subnet, hc, ih hrest]
    | err e2 => simp [NetParse.isErr] at hs

/-- C1: the spec states that a parse error of any network text makes
`iface_in_all_subnets` fail with a parse error, but the code's
`if let Ok(false)` discards the `Err` result of `iface_in_subnet` and
continues the loop: on the interface text `192.168.182.1` with the single
unparseable subnet text the call returns `Ok true` instead of an error. -/
theorem c1_all_subnets_swallows_parse_error :
    iface_in_all_subnets ⟨some 3232282113, none⟩ [NetParse.err "not-a-cidr"] =
      .ok true := rfl

/-- C2: when the subnet text parses as a network of a family and the
interface text parses as an address of the same family, `iface_in_subnet`
returns `Ok b` with `b` true iff the interface masked to the network's
prefix length over the family's bit width equals the network's base
address masked likewise. -/
theorem c2_same_family_mask_and_compare (i j : IfaceText) (s4 : Netv4Addr)
    (s6 : Netv6Addr) (a b : Nat) (h4 : i.p4 = some a) (h6 : j.p6 = some b) :
    iface_in_subnet i (.v4 s4) =
      .ok (maskAddr 32 s4.pfxLen a == maskAddr 32 s4.pfxLen s4.base) ∧
    iface_in_subnet j (.v6 s6) =
      .ok (maskAddr 128 s6.pfxLen b == maskAddr 128 s6.pfxLen s6.base) := by
  constructor <;>
    simp [iface_in_subnet, h4, h6, Netv4Addr.contains, Netv6Addr.contains]

theorem c2_same_family_mask_and_compare_witness :
    iface_in_subnet ⟨some 3232282113, none⟩ (.v4 ⟨3232282112, 24⟩) =
      .ok (maskAddr 32 24 3232282113 == maskAddr 32 24 3232282112) ∧
    iface_in_subnet ⟨none, some 1⟩ (.v6 ⟨0, 128⟩) =
      .ok (maskAddr 128 128 1 == maskAddr 128 128 0) :=
  c2_same_family_mask_and_compare ⟨some 3232282113, none⟩ ⟨none, some 1⟩
    ⟨3232282112, 24⟩ ⟨0, 128⟩ 3232282113 1 rfl rfl

/-- C4: when the subnet text parses as a network of a family but the
interface text does not parse as an address of that family (malformed, or
of the other family), `iface_in_subnet` returns `Ok false` and never an
error. -/
theorem c4_unparsed_iface_false (i j : IfaceText) (s4 : Netv4Addr)
    (s6 : Netv6Addr) (h4 : i.p4 = none) (h6 : j.p6 = none) :
    iface_in_subnet i (.v4 s4) = .ok false ∧
    iface_in_subnet j (.v6 s6) = .ok false := by
  constructor <;> simp [iface_in_subnet, h4, h6]

theorem c4_unparsed_iface_false_witness :
    iface_in_subnet ⟨none, some 1⟩ (.v4 ⟨3232282112, 24⟩) = .ok false ∧
    iface_in_subnet ⟨some 5, none⟩ (.v6 ⟨0, 64⟩) = .ok false :=
  c4_unparsed_iface_false ⟨none, some 1⟩ ⟨some 5, none⟩ ⟨3232282112, 24⟩
    ⟨0, 64⟩ rfl rfl

/-- C5: for a valid address and network of the same family,
`iface_in_subnet` returns `Ok true` when the prefix length is 0, and
returns `Ok true` iff the address equals the base address exactly when
the prefix length is the family's full bit width (32 or 128). -/
theorem c5_zero_and_full_pfx (i j : IfaceText) (a b : Nat)
    (s40 s4f : Netv4Addr) (s60 s6f : Netv6Addr)
    (h4 : i.p4 = some a) (ha : a < 2 ^ 32) (h40b : s40.base < 2 ^ 32)
    (h6 : j.p6 = some b) (hb : b < 2 ^ 128) (h60b : s60.base < 2 ^ 128)
    (h40 : s40.pfxLen = 0) (h4f : s4f.pfxLen = 32)
    (h60 : s60.pfxLen = 0) (h6f : s6f.pfxLen = 128) :
    iface_in_subnet i (.v4 s40) = .ok true ∧
    iface_in_subnet i (.v4 s4f) = .ok (a == s4f.base) ∧
    iface_in_subnet j (.v6 s60) = .ok true ∧
    iface_in_subnet j (.v6 s6f) = .ok (b == s6f.base) := by
  refine ⟨?_, ?_, ?_, ?_⟩
  · simp [iface_in_subnet, h4, Netv4Addr.contains, h40,
      maskAddr_zero 32 a ha, maskAddr_zero 32 s40.base h40b]
  · simp [iface_in_subnet, h4, Netv4Addr.contains, h4f, maskAddr_full]
  · simp [iface_in_subnet, h6, Netv6Addr.contains, h60,
      maskAddr_zero 128 b hb, maskAddr_zero 128 s60.base h60b]
  · simp [iface_in_subnet, h6, Netv6Addr.contains, h6f, maskAddr_full]

theorem c5_zero_and_full_pfx_witness :
    iface_in_subnet ⟨some 3232282113, none⟩ (.v4 ⟨7, 0⟩) = .ok true ∧
    iface_in_subnet ⟨some 3232282113, none⟩ (.v4 ⟨3232282113, 32⟩) =
      .ok (3232282113 == 3232282113) ∧
    iface_in_subnet ⟨none, some 1⟩ (.v6 ⟨9, 0⟩) = .ok true ∧
    iface_in_subnet ⟨none, some 1⟩ (.v6 ⟨2, 128⟩) = .ok (1 == 2) :=
  c5_zero_and_full_pfx ⟨some 3232282113, none⟩ ⟨none, some 1⟩ 3232282113 1
    ⟨7, 0⟩ ⟨3232282113, 32⟩ ⟨9, 0⟩ ⟨2, 128⟩ rfl (by decide) (by decide)
    rfl (by decide) (by decide) rfl rfl rfl rfl

/-- C7: on the empty list of subnet texts `iface_in_all_subnets` returns
`Ok true` for every interface text (vacuous truth). -/
theorem c7_all_subnets_empty_true (i : IfaceText) :
    iface_in_all_subnets i [] = .ok true := rfl

/-- C9: `iface_in_all_subnets` always returns `Ok` — it never returns an
error for any input — and a subnet text that fails to parse is silently
passed over, as if the interface were contained in it: deleting it from
the list does not change the result. -/
theorem c9_all_subnets_total (i : IfaceText) (subnets pre post : List NetParse)
    (e : String) :
    (∃ b, iface_in_all_subnets i subnets = .ok b) ∧
    iface_in_all_subnets i (pre ++ NetParse.err e :: post) =
      iface_in_all_subnets i (pre ++ post) :=
  ⟨iface_in_all_subnets_isOk i subnets, iface_in_all_subnets_drop_err i e pre post⟩

lemma any_iface_v4_eq_any (s4 : Netv4Addr) :
    ∀ ifaces : List IfaceText,
      any_iface_v4 s4 ifaces =
        ifaces.any fun i => pairMatch (NetParse.v4 s4) i := by
  intro ifaces
  induction ifaces with
  | nil => rfl
  | cons i rest ih =>
    cases hp : i.p4 with
    | none => simp [any_iface_v4, pairMatch, hp, ih]
    | some a =>
      cases hc : s4.contains a with
      | true => simp [any_iface_v4, pairMatch, hp, hc]
      | false => simp [any_iface_v4, pairMatch, hp, hc, ih]

lemma any_iface_v6_eq_any (s6 : Netv6Addr) :
    ∀ ifaces : List IfaceText,
      any_iface_v6 s6 ifaces =
        ifaces.any fun i => pairMatch (NetParse.v6 s6) i := by
  intro ifaces
  induction ifaces with
  | nil => rfl
  | cons i rest ih =>
    cases hp : i.p6 with
    | none => simp [any_iface_v6, pairMatch, hp, ih]
    | some a =>
      cases hc : s6.contains a with
      | true => simp [any_iface_v6, pairMatch, hp, hc]
      | false => simp [any_iface_v6, pairMatch, hp, hc, ih]

lemma any_iface_in_any_subnet_no_err (ifaces : List IfaceText) :
    ∀ subnets : List NetParse, (∀ s ∈ subnets, s.isErr = false) →
      any_iface_in_any_subnet ifaces subnets =
        .ok (subnets.any fun s => ifaces.any fun i => pairMatch s i) := by
  intro subnets
  induction subnets with
  | nil => intro _; rfl
  | cons s rest ih =>
    intro h
    have hs : s.isErr = false := h s (List.mem_cons_self s rest)
    have hrest : ∀ t ∈ rest, t.isErr = false :=
      fun t ht => h t (List.mem_cons_of_mem s ht)
    cases s with
    | v4 s4 =>
      cases hc : any_iface_v4 s4 ifaces with
      | true =>
        simp [any_iface_in_any_subnet, hc, ← any_iface_v4_eq_any]
      | false =>
        simp [any_iface_in_any_subnet, hc, ← any_iface_v4_eq_any, ih hrest]
    | v6 s6 =>
      cases hc : any_iface_v6 s6 ifaces with
      | true =>
        simp [any_iface_in_any_subnet, hc, ← any_iface_v6_eq_any]
      | false =>
        simp [any_iface_in_any_subnet, hc, ← any_iface_v6_eq_any, ih hrest]
    | err e => simp [NetParse.isErr] at hs

lemma any_iface_v4_skip (s4 : Netv4Addr) (i : IfaceText) (h : i.p4 = none)
    (pre post : List IfaceText) :
    any_iface_v4 s4 (pre ++ i :: post) = any_iface_v4 s4 (pre ++ post) := by
  simp [any_iface_v4_eq_any, pairMatch, h]

lemma any_iface_v6_skip (s6 : Netv6Addr) (i : IfaceText) (h : i.p6 = none)
    (pre post : List IfaceText) :
    any_iface_v6 s6 (pre ++ i :: post) = any_iface_v6 s6 (pre ++ post) := by
  simp [any_iface_v6_eq_any, pairMatch, h]

lemma any_iface_in_any_subnet_skip_iface (i : IfaceText)
    (pre post : List IfaceText) (h4 : i.p4 = none) (h6 : i.p6 = none) :
    ∀ subnets : List NetParse,
      any_iface_in_any_subnet (pre ++ i :: post) subnets =
        any_iface_in_any_subnet (pre ++ post) subnets := by
  intro subnets
  induction subnets with
  | nil => rfl
  | cons s rest ih =>
    cases s with
    | v4 s4 =>
      simp [any_iface_in_any_subnet, any_iface_v4_skip s4 i h4 pre post, ih]
    | v6 s6 =>
      simp [any_iface_in_any_subnet, any_iface_v6_skip s6 i h6 pre post, ih]
    | err e => simp [any_iface_in_any_subnet]

/-- C3: both `iface_in_any_subnet` and `any_iface_in_any_subnet` process
subnet texts strictly in list order: with `S1` the error-free texts
before the first malformed one, the call returns `Ok true` when a match
is found within `S1`, and otherwise returns the first parse error — the
texts after it are never reached. -/
theorem c3_first_network_error (i : IfaceText) (ifaces : List IfaceText)
    (e : String) (S1 S2 : List NetParse) (h : ∀ s ∈ S1, s.isErr = false) :
    iface_in_any_subnet i (S1 ++ NetParse.err e :: S2) =
      (if iface_in_any_subnet i S1 = .ok true then .ok true
       else .error e) ∧
    any_iface_in_any_subnet ifaces (S1 ++ NetParse.err e :: S2) =
      (if any_iface_in_any_subnet ifaces S1 = .ok true then .ok true
       else .error e) := by
  constructor
  · rw [iface_in_any_subnet_eq_naive, iface_in_any_subnet_eq_naive,
      iface_in_any_subnet_naive_append_err i e S2 S1 h]
  · exact any_iface_in_any_subnet_append_err ifaces e S2 S1 h

theorem c3_first_network_error_witness :
    iface_in_any_subnet ⟨some 3232282113, none⟩
        ([NetParse.v4 ⟨3232282112, 24⟩] ++ NetParse.err "bad" :: []) =
      (if iface_in_any_subnet ⟨some 3232282113, none⟩
            [NetParse.v4 ⟨3232282112, 24⟩] = .ok true
       then .ok true else .error "bad") ∧
    any_iface_in_any_subnet [⟨some 3232282113, none⟩]
        ([NetParse.v4 ⟨3232282112, 24⟩] ++ NetParse.err "bad" :: []) =
      (if any_iface_in_any_subnet [⟨some 3232282113, none⟩]
            [NetParse.v4 ⟨3232282112, 24⟩] = .ok true
       then .ok true else .error "bad") :=
  c3_first_network_error ⟨some 3232282113, none⟩ [⟨some 3232282113, none⟩]
    "bad" [NetParse.v4 ⟨3232282112, 24⟩] [] (by decide)

/-- C6: on subnet lists whose texts all parse, `any_iface_in_any_subnet`
returns `Ok true` exactly when some (network, address) pair matches —
the network-major, address-minor scan of the code — and an interface
text that parses in neither family is skipped without error: deleting it
from the interface list never changes the result. -/
theorem c6_network_major_scan (ifaces pre post : List IfaceText)
    (i : IfaceText) (subnets subnets2 : List NetParse)
    (h : ∀ s ∈ subnets, s.isErr = false)
    (h4 : i.p4 = none) (h6 : i.p6 = none) :
    any_iface_in_any_subnet ifaces subnets =
      .ok (subnets.any fun s => ifaces.any fun x => pairMatch s x) ∧
    any_iface_in_any_subnet (pre ++ i :: post) subnets2 =
      any_iface_in_any_subnet (pre ++ post) subnets2 :=
  ⟨any_iface_in_any_subnet_no_err ifaces subnets h,
   any_iface_in_any_subnet_skip_iface i pre post h4 h6 subnets2⟩

theorem c6_network_major_scan_witness :
    any_iface_in_any_subnet [⟨some 3232282114, none⟩]
        [NetParse.v4 ⟨3232282112, 24⟩] =
      .ok ([NetParse.v4 ⟨3232282112, 24⟩].any fun s =>
        [(⟨some 3232282114, none⟩ : IfaceText)].any fun x => pairMatch s x) ∧
    any_iface_in_any_subnet ([] ++ ⟨none, none⟩ :: [⟨some 3232282113, none⟩])
        [NetParse.v4 ⟨3232282112, 24⟩] =
      any_iface_in_any_subnet ([] ++ [⟨some 3232282113, none⟩])
        [NetParse.v4 ⟨3232282112, 24⟩] :=
  c6_network_major_scan [⟨some 3232282114, none⟩] [] [⟨some 3232282113, none⟩]
    ⟨none, none⟩ [NetParse.v4 ⟨3232282112, 24⟩] [NetParse.v4 ⟨3232282112, 24⟩]
    (by decide) rfl rfl

/-- C8 counterexample: with an empty interface list but a malformed
subnet text, `any_iface_in_any_subnet` returns the parse error, not
`Ok false` as the claim states for every call with an empty list. -/
theorem c8_empty_iface_error_counterexample :
    any_iface_in_any_subnet ([] : List IfaceText) [NetParse.err "bad"] =
      .error "bad" ∧
    (Except.error "bad" : Except String Bool) ≠ .ok false :=
  ⟨rfl, by decide⟩

/-- C8 (amended): `iface_in_any_subnet` on the empty subnet list returns
`Ok false`; `any_iface_in_any_subnet` returns `Ok false` on an empty
subnet list, and on an empty interface list provided every subnet text
parses — with an empty interface list a malformed subnet text still
yields the parse error. -/
theorem c8_empty_lists_false (i : IfaceText) (ifaces : List IfaceText)
    (subnets : List NetParse) (h : ∀ s ∈ subnets, s.isErr = false) :
    iface_in_any_subnet i [] = .ok false ∧
    any_iface_in_any_subnet ifaces [] = .ok false ∧
    any_iface_in_any_subnet [] subnets = .ok false := by
  refine ⟨rfl, rfl, ?_⟩
  rw [any_iface_in_any_subnet_no_err [] subnets h]
  simp

theorem c8_empty_lists_false_witness :
    iface_in_any_subnet ⟨some 1, none⟩ [] = .ok false ∧
    any_iface_in_any_subnet [⟨some 1, none⟩] [] = .ok false ∧
    any_iface_in_any_subnet [] [NetParse.v4 ⟨3232282112, 24⟩] = .ok false :=
  c8_empty_lists_false ⟨some 1, none⟩ [⟨some 1, none⟩]
    [NetParse.v4 ⟨3232282112, 24⟩] (by decide)

/-- C10: despite caching the parsed IPv4 and IPv6 forms of the interface
text, `iface_in_any_subnet` returns exactly the result of the naive fold
`iface_in_any_subnet_naive` that evaluates `iface_in_subnet` on each
subnet text in order, returning `Ok true` at the first `Ok true`,
propagating the first `Err`, and returning `Ok false` when the list is
exhausted. -/
theorem c10_any_subnet_eq_naive_fold (i : IfaceText) (subnets : List NetParse) :
    iface_in_any_subnet i subnets = iface_in_any_subnet_naive i subnets :=
  iface_in_any_subnet_eq_naive i subnets

end IpInSubnet
